import Mathlib

/-!
Verification of the geo-targeting core of the JobsInCare campaign prototype.

The subject code is `server/geo/outcode-targeting.cjs` (postcode parsing,
area expansion, coverage lookup, platform serialization) together with the
geo helpers of `server/db/locations-mysql.cjs` (`getDistrictsByCounty`,
`deriveOutcodeFromPostcode`).  Every definition below is a shallow embedding
of the corresponding JavaScript/SQL, with the following documented
modelling conventions:

* JavaScript strings are Lean `String`s; `toUpperCase`/`trim` are modelled
  character-wise (`Char.toUpper` is the ASCII case map, which agrees with
  JavaScript on the ASCII range relevant to postcodes); `trim` and the
  regex class `\s` use the JavaScript whitespace set.
* The MySQL `LIKE` operator is modelled by an executable matcher
  (`likeMatch`) supporting `%`, `_` and backslash escapes; the
  case-insensitive collation of the reference tables is modelled by
  upper-casing both pattern and subject.  `DISTINCT` and `ORDER BY` are
  modelled with exact string equality/ordering, which coincides with the
  collation for case-consistently stored reference data.
* Database values that may be `NULL` are `Option String`; numeric columns
  are delivered by the driver as JavaScript values (`JsVal`), and the
  `Number(...)` coercion is modelled by `jsNumber`, whose `none` result
  stands for `NaN`.
* Promise-returning code is pure where no failure is possible; the failure
  behaviour of `pool.execute` is modelled by `resolveTargetingE` over an
  explicit fallible interface, with `Except.error` standing for a rejected
  promise.
-/

namespace OutcodeTargeting

/-! ## JavaScript string primitives -/

/-- The JavaScript whitespace class `\s` (also the set trimmed by
`String.prototype.trim`). -/
def jsWs (c : Char) : Bool :=
  c = ' ' || c = '\t' || c = '\n' || c = '\r' ||
  c = '\x0b' || c = '\x0c' || c = '\u00a0' || c = '\u1680' ||
  ('\u2000' ≤ c && c ≤ '\u200a') || c = '\u2028' || c = '\u2029' ||
  c = '\u202f' || c = '\u205f' || c = '\u3000' || c = '\ufeff'

/-- JavaScript `String.prototype.toUpperCase`, character-wise (ASCII case
map; outcodes and reference data are ASCII). -/
def jsToUpper (s : String) : String :=
  String.mk (s.data.map Char.toUpper)

/-- JavaScript `String.prototype.trim`: strip `\s` characters from both
ends. -/
def jsTrim (s : String) : String :=
  String.mk (((s.data.dropWhile jsWs).reverse.dropWhile jsWs).reverse)

/-! ## The full-postcode regex of `outcode-targeting.cjs`

`const OUTCODE_REGEX = /^([A-Z]{1,2}\d{1,2}[A-Z]?)[\s]?\d[A-Z]{2}$/i;`

The regex is applied to an upper-cased string, so the `i` flag is inert.
A backtracking regex engine explores the greedy quantifier alternatives in
a fixed order; we enumerate the finitely many alternatives in exactly that
order and return the capture group of the first that matches. -/

def isUpperLetter (c : Char) : Bool := 'A' ≤ c && c ≤ 'Z'

def isDigitChar (c : Char) : Bool := '0' ≤ c && c ≤ '9'

/-- Take exactly `n` characters satisfying `p` from the front. -/
def splitTake (n : Nat) (p : Char → Bool) (cs : List Char) :
    Option (List Char × List Char) :=
  match n, cs with
  | 0, cs => some ([], cs)
  | _ + 1, [] => none
  | n + 1, c :: cs =>
    if p c then
      match splitTake n p cs with
      | some (a, b) => some (c :: a, b)
      | none => none
    else none

/-- One backtracking alternative of `OUTCODE_REGEX`: `l` letters, `d`
digits, optionally one more letter, optionally one whitespace character,
then exactly digit-letter-letter and end of input.  Returns the capture
group (letters ++ digits ++ optional letter). -/
def tryOutcodeSplit (l d : Nat) (useL useW : Bool) (cs : List Char) :
    Option String :=
  match splitTake l isUpperLetter cs with
  | none => none
  | some (ls, r1) =>
    match splitTake d isDigitChar r1 with
    | none => none
    | some (ds, r2) =>
      match (if useL then splitTake 1 isUpperLetter r2 else some ([], r2)) with
      | none => none
      | some (ol, r3) =>
        match (if useW then splitTake 1 jsWs r3 else some ([], r3)) with
        | none => none
        | some (_, r4) =>
          match r4 with
          | [c0, c1, c2] =>
            if isDigitChar c0 && isUpperLetter c1 && isUpperLetter c2 then
              some (String.mk (ls ++ ds ++ ol))
            else none
          | _ => none

/-- The greedy backtracking order of the quantifier alternatives:
`{1,2}` tries two first, `?` tries presence first; earlier quantifiers
backtrack last. -/
def outcodeAlternatives : List (Nat × Nat × Bool × Bool) :=
  [(2, 2, true, true), (2, 2, true, false), (2, 2, false, true), (2, 2, false, false),
   (2, 1, true, true), (2, 1, true, false), (2, 1, false, true), (2, 1, false, false),
   (1, 2, true, true), (1, 2, true, false), (1, 2, false, true), (1, 2, false, false),
   (1, 1, true, true), (1, 1, true, false), (1, 1, false, true), (1, 1, false, false)]

/-- `s.match(OUTCODE_REGEX)` on an upper-cased string: capture group 1 of
the first succeeding alternative, or `none`. -/
def matchOutcodeRegex (cs : List Char) : Option String :=
  outcodeAlternatives.foldl
    (fun acc alt =>
      match acc with
      | some r => some r
      | none => tryOutcodeSplit alt.1 alt.2.1 alt.2.2.1 alt.2.2.2 cs)
    none

/-- `extractOutcodeFromPostcode` from `outcode-targeting.cjs`:

```js
function extractOutcodeFromPostcode(input) {
  if (!input) return null;
  const s = String(input).trim().toUpperCase();
  const m = s.match(OUTCODE_REGEX);
  return m ? m[1] : null;
}
``` -/
def extractOutcodeFromPostcode (input : String) : Option String :=
  if input = "" then none
  else matchOutcodeRegex (jsToUpper (jsTrim input)).data

example : extractOutcodeFromPostcode "G64 1AB" = some "G64" := by decide
example : extractOutcodeFromPostcode "g64 1ab" = some "G64" := by decide
example : extractOutcodeFromPostcode "G641AB" = some "G64" := by decide
example : extractOutcodeFromPostcode "EH1 1BB" = some "EH1" := by decide
example : extractOutcodeFromPostcode "W1A 1AB" = some "W1A" := by decide
example : extractOutcodeFromPostcode "KA10" = none := by decide
example : extractOutcodeFromPostcode "AYRSHIRE" = none := by decide
example : extractOutcodeFromPostcode "GIR 0AA" = none := by decide

/-! ## The feed-path postcode parser of `locations-mysql.cjs`

```js
function deriveOutcodeFromPostcode(postcode) {
  if (!postcode) return "";
  const raw = String(postcode).toUpperCase().trim();
  const noSpace = raw.replace(/\s+/g, "");
  const m = noSpace.match(/^([A-Z]{1,2}\d[A-Z\d]?)(\d[A-Z]{2})$/);
  if (m) return m[1];
  const sp = raw.indexOf(" ");
  if (sp > 0) return raw.slice(0, sp);
  if (raw.length > 3) return raw.slice(0, -3);
  return raw;
}
``` -/

def isAlnumUpper (c : Char) : Bool := isUpperLetter c || isDigitChar c

/-- One backtracking alternative of the derive regex: `l` letters, one
digit, optionally one `[A-Z\d]`, then digit-letter-letter and end. -/
def tryDeriveSplit (l : Nat) (useMid : Bool) (cs : List Char) : Option String :=
  match splitTake l isUpperLetter cs with
  | none => none
  | some (ls, r1) =>
    match splitTake 1 isDigitChar r1 with
    | none => none
    | some (d1, r2) =>
      match (if useMid then splitTake 1 isAlnumUpper r2 else some ([], r2)) with
      | none => none
      | some (mid, r3) =>
        match r3 with
        | [c0, c1, c2] =>
          if isDigitChar c0 && isUpperLetter c1 && isUpperLetter c2 then
            some (String.mk (ls ++ d1 ++ mid))
          else none
        | _ => none

/-- Greedy backtracking order for `/^([A-Z]{1,2}\d[A-Z\d]?)(\d[A-Z]{2})$/`. -/
def matchDeriveRegex (cs : List Char) : Option String :=
  [(2, true), (2, false), (1, true), (1, false)].foldl
    (fun acc alt =>
      match acc with
      | some r => some r
      | none => tryDeriveSplit alt.1 alt.2 cs)
    none

def deriveOutcodeFromPostcode (postcode : String) : String :=
  if postcode = "" then ""
  else
    let raw := jsTrim (jsToUpper postcode)
    let noSpace := String.mk (raw.data.filter (fun c => !jsWs c))
    match matchDeriveRegex noSpace.data with
    | some out => out
    | none =>
      match raw.data.findIdx? (· = ' ') with
      | some sp =>
        if sp > 0 then String.mk (raw.data.take sp)
        else if raw.length > 3 then String.mk (raw.data.take (raw.length - 3))
        else raw
      | none =>
        if raw.length > 3 then String.mk (raw.data.take (raw.length - 3))
        else raw

example : deriveOutcodeFromPostcode "G64 1AB" = "G64" := by decide
example : deriveOutcodeFromPostcode "AYRSHIRE" = "AYRSH" := by decide
example : deriveOutcodeFromPostcode "G64" = "G64" := by decide

/-! ## The MySQL `LIKE` operator

`likeMatch ps ts` decides whether the pattern `ps` matches the whole
subject `ts`: `%` matches any sequence, `_` any single character, and a
backslash escapes the following pattern character (a trailing lone
backslash matches a literal backslash).  The case-insensitive collation of
the reference tables is modelled by comparing upper-cased strings
(`likeCI`). -/

def likeMatch : List Char → List Char → Bool
  | [], ts => ts.isEmpty
  | p :: ps2, ts =>
    if p = '%' then
      ts.tails.any (fun ts2 => likeMatch ps2 ts2)
    else if p = '_' then
      match ts with
      | [] => false
      | _ :: ts2 => likeMatch ps2 ts2
    else if p = '\\' then
      match ps2 with
      | [] => ts = ['\\']
      | c :: ps3 =>
        match ts with
        | [] => false
        | t :: ts3 => t = c && likeMatch ps3 ts3
    else
      match ts with
      | [] => false
      | t :: ts2 => t = p && likeMatch ps2 ts2

/-- `LIKE` under the case-insensitive collation, on a nullable column
(`NULL LIKE p` is not true). -/
def likeCI (pat : String) (field : Option String) : Bool :=
  match field with
  | none => false
  | some t => likeMatch (jsToUpper pat).data (jsToUpper t).data

example : likeMatch "%AYRSHIRE%".data "NORTH AYRSHIRE".data = true := by decide
example : likeCI "%Ayrshire%" (some "North ayrshire") = true := by decide
example : likeCI "%Ayrshire%" (some "Fife") = false := by decide
example : likeCI "%Ayrshire%" none = false := by decide

/-! ## JavaScript values and the `Number(...)` coercion

The mysql2 driver delivers a cell either as a JavaScript number, as a
string (DECIMAL columns), or as `null`.  `fetchOutcodeStats` applies
`Number(...)` to each numeric cell; `jsNumber` models that coercion, with
`none` standing for `NaN`.  String parsing covers plain decimal literals
(optional sign, digits, optional fraction), which is the shape the driver
produces; non-numeric strings coerce to `NaN`. -/

inductive JsVal where
  | num (q : ℚ)
  | str (s : String)
  | null
deriving DecidableEq

def digitsToNat : List Char → Nat
  | [] => 0
  | c :: cs => (c.toNat - '0'.toNat) * 10 ^ cs.length + digitsToNat cs

/-- Parse an unsigned decimal literal (`123`, `12.5`, `.5`, `3.`). -/
def parseUnsignedDec (cs : List Char) : Option ℚ :=
  let intPart := cs.takeWhile isDigitChar
  let rest := cs.dropWhile isDigitChar
  match rest with
  | [] => if intPart = [] then none else some (digitsToNat intPart)
  | '.' :: frac =>
    if frac.all isDigitChar && (intPart ≠ [] || frac ≠ []) then
      some ((digitsToNat intPart : ℚ) + (digitsToNat frac : ℚ) / (10 ^ frac.length : ℚ))
    else none
  | _ => none

def parseSignedDec (cs : List Char) : Option ℚ :=
  match cs with
  | '-' :: rest => (parseUnsignedDec rest).map (fun q => -q)
  | '+' :: rest => parseUnsignedDec rest
  | _ => parseUnsignedDec cs

/-- JavaScript `Number(v)`; `none` is `NaN`.  `Number(null) = 0`, the empty
or all-whitespace string coerces to `0`. -/
def jsNumber : JsVal → Option ℚ
  | .num q => some q
  | .null => some 0
  | .str s =>
    let t := (jsTrim s).data
    if t = [] then some 0 else parseSignedDec t

example : (jsNumber (.str "12.5")).isSome = true := by decide
example : jsNumber (.str "N/A") = none := by decide
example : jsNumber (.str "") = some 0 := by decide
example : jsNumber .null = some 0 := by decide

/-! ## The reference dataset -/

/-- A row of `os_open_names` (the columns the queries touch); text columns
are nullable. -/
structure OsOpenNamesRow where
  POSTCODE_DISTRICT : Option String
  COUNTY_UNITARY : Option String
  DISTRICT_BOROUGH : Option String
  REGION : Option String
deriving DecidableEq

/-- A row of `postcode_district_stats`. -/
structure StatsRow where
  outcode : String
  approx_radius_km : JsVal
  approx_diameter_km : JsVal
  centroid_easting_m : JsVal
  centroid_northing_m : JsVal
deriving DecidableEq

/-- The reference dataset reachable through the connection pool. -/
structure GeoDb where
  names : List OsOpenNamesRow
  stats : List StatsRow
deriving DecidableEq

/-! ## Deduplication and sorting

`Array.from(new Set(xs))` keeps the first occurrence of each element;
`jsSetDedup` models it.  The default `Array.prototype.sort()` comparator
orders strings lexicographically; SQL `DISTINCT`/`ORDER BY` are modelled
the same way (see the header).  Both sorts are modelled by insertion sort,
which is stable, as required of `Array.prototype.sort`. -/

/-- Lexicographic strict comparison of strings by character code, the
order realised by the default `Array.prototype.sort()` comparator (UTF-16
code units; identical to code points on the basic multilingual plane,
which covers all data in this system) and by SQL `ORDER BY` on
case-consistent data. -/
def strLtChars : List Char → List Char → Bool
  | [], [] => false
  | [], _ :: _ => true
  | _ :: _, [] => false
  | a :: as, b :: bs => a < b || (a = b && strLtChars as bs)

def strLe (a b : String) : Bool := !(strLtChars b.data a.data)

/-- `strLe` as a relation, used to state sortedness. -/
def strLeRel (a b : String) : Prop := strLe a b = true

instance : DecidableRel strLeRel := fun a b => instDecidableEqBool (strLe a b) true

/-- `strLtChars` computes the lexicographic order `List.Lex (· < ·)`. -/
theorem strLtChars_iff : ∀ as bs : List Char,
    strLtChars as bs = true ↔ List.Lex (· < ·) as bs
  | [], [] => by simp [strLtChars]
  | [], b :: bs => iff_of_true rfl List.Lex.nil
  | a :: as, [] => by simp [strLtChars]
  | a :: as, b :: bs => by
    simp only [strLtChars, Bool.or_eq_true, Bool.and_eq_true, decide_eq_true_eq]
    constructor
    · rintro (h | ⟨rfl, h⟩)
      · exact List.Lex.rel h
      · exact List.Lex.cons ((strLtChars_iff as bs).1 h)
    · intro h
      cases h with
      | rel h => exact Or.inl h
      | cons h => exact Or.inr ⟨rfl, (strLtChars_iff as bs).2 h⟩

theorem strLt_asymm (as bs : List Char) (h : strLtChars as bs = true) :
    strLtChars bs as = false := by
  rw [Bool.eq_false_iff]
  intro h2
  rw [strLtChars_iff] at h h2
  exact IsAsymm.asymm _ _ h h2

theorem strLt_conn (as bs : List Char) (h : strLtChars as bs = false)
    (h2 : strLtChars bs as = false) : as = bs := by
  rcases (inferInstance : IsTrichotomous (List Char) (List.Lex (· < ·))).trichotomous
      as bs with h3 | h3 | h3
  · rw [← strLtChars_iff] at h3
    rw [h3] at h
    exact Bool.noConfusion h
  · exact h3
  · rw [← strLtChars_iff] at h3
    rw [h3] at h2
    exact Bool.noConfusion h2

theorem strLt_trans (as bs cs : List Char) (h : strLtChars as bs = true)
    (h2 : strLtChars bs cs = true) : strLtChars as cs = true := by
  rw [strLtChars_iff] at h h2 ⊢
  exact IsTrans.trans _ _ _ h h2

instance : IsTotal String strLeRel :=
  ⟨fun a b => by
    unfold strLeRel strLe
    rcases h : strLtChars b.data a.data with _ | _
    · simp
    · simp [strLt_asymm _ _ h]⟩

instance : IsTrans String strLeRel :=
  ⟨fun a b c hab hbc => by
    unfold strLeRel strLe at hab hbc ⊢
    simp only [Bool.not_eq_true'] at hab hbc ⊢
    rcases h : strLtChars c.data a.data with _ | _
    · rfl
    · exfalso
      rcases h2 : strLtChars a.data b.data with _ | _
      · have := strLt_conn _ _ h2 hab
        rw [this] at h
        rw [h] at hbc
        exact Bool.noConfusion hbc
      · have := strLt_trans _ _ _ h h2
        rw [this] at hbc
        exact Bool.noConfusion hbc⟩

def jsSetDedupGo : List String → List String → List String
  | [], _ => []
  | x :: xs, seen =>
    if x ∈ seen then jsSetDedupGo xs seen else x :: jsSetDedupGo xs (x :: seen)

/-- First-occurrence deduplication (`new Set`, and SQL `DISTINCT`). -/
def jsSetDedup (l : List String) : List String := jsSetDedupGo l []

/-- Lexicographic string sort (`Array.prototype.sort()` with the default
comparator, and SQL `ORDER BY`), modelled by a stable insertion sort. -/
def sortStrings (l : List String) : List String :=
  List.insertionSort strLeRel l

example : sortStrings (jsSetDedup ["KA10", "G64", "KA10", "KA11"]) =
    ["G64", "KA10", "KA11"] := by decide

/-! ## `expandAreaToOutcodes`

```sql
SELECT DISTINCT POSTCODE_DISTRICT AS outcode
FROM os_open_names
WHERE POSTCODE_DISTRICT IS NOT NULL AND POSTCODE_DISTRICT <> ''
  AND ( COUNTY_UNITARY LIKE CONCAT('%', ?, '%')
     OR DISTRICT_BOROUGH LIKE CONCAT('%', ?, '%')
     OR REGION LIKE CONCAT('%', ?, '%') )
ORDER BY outcode
``` -/

/-- `CONCAT('%', ?, '%')`. -/
def expandPattern (location : String) : String := "%" ++ location ++ "%"

def rowMatchesArea (pat : String) (r : OsOpenNamesRow) : Bool :=
  r.POSTCODE_DISTRICT ≠ none && r.POSTCODE_DISTRICT ≠ some "" &&
  (likeCI pat r.COUNTY_UNITARY || likeCI pat r.DISTRICT_BOROUGH ||
   likeCI pat r.REGION)

def expandAreaToOutcodes (db : GeoDb) (location : String) : List String :=
  let pat := expandPattern location
  let rows := db.names.filter (rowMatchesArea pat)
  sortStrings (jsSetDedup (rows.map (fun r => r.POSTCODE_DISTRICT.getD "")))

/-! ## `fetchOutcodeStats` and the JavaScript `Map` -/

/-- A coverage record as built by `fetchOutcodeStats`: the four numeric
cells after `Number(...)` coercion (`none` = `NaN`). -/
structure OutcodeStats where
  outcode : String
  approx_radius_km : Option ℚ
  approx_diameter_km : Option ℚ
  centroid_easting_m : Option ℚ
  centroid_northing_m : Option ℚ
deriving DecidableEq

def mkStats (r : StatsRow) : OutcodeStats :=
  { outcode := r.outcode,
    approx_radius_km := jsNumber r.approx_radius_km,
    approx_diameter_km := jsNumber r.approx_diameter_km,
    centroid_easting_m := jsNumber r.centroid_easting_m,
    centroid_northing_m := jsNumber r.centroid_northing_m }

/-- `Map.prototype.set`: replace in place, or append a new entry. -/
def jsMapSet (m : List (String × OutcodeStats)) (k : String)
    (v : OutcodeStats) : List (String × OutcodeStats) :=
  if m.any (fun p => p.1 = k) then
    m.map (fun p => if p.1 = k then (k, v) else p)
  else m ++ [(k, v)]

/-- `Map.prototype.get` (exact key comparison). -/
def jsMapGet (m : List (String × OutcodeStats)) (k : String) :
    Option OutcodeStats :=
  (m.find? (fun p => p.1 = k)).map (fun p => p.2)

/-- `fetchOutcodeStats`: batched `WHERE outcode IN (...)` query, then a
`Map` keyed by the row's own `outcode` value. -/
def fetchOutcodeStats (db : GeoDb) (outcodes : List String) :
    List (String × OutcodeStats) :=
  if outcodes = [] then []
  else
    let rows := db.stats.filter (fun r => outcodes.contains r.outcode)
    rows.foldl (fun m r => jsMapSet m r.outcode (mkStats r)) []

/-! ## The serialization step of `resolveTargeting` (lines 110-128)

```js
const uniq = Array.from(new Set(outcodes.map(String))).sort();
const metaBulkText = uniq.join('\n');
const platform_serializations = {
  meta_bulk_text: metaBulkText,
  tiktok_postal_codes: uniq, linkedin_postal_codes: uniq,
  pinterest_postal_codes: uniq, google_ads_postal_codes: uniq };
return { postal_codes: uniq, postal_code_system: 'GB_POSTCODE_DISTRICT',
  coverage: statsList.sort((a, b) => a.outcode.localeCompare(b.outcode)),
  platform_serializations };
``` -/

structure PlatformSerializations where
  meta_bulk_text : String
  tiktok_postal_codes : List String
  linkedin_postal_codes : List String
  pinterest_postal_codes : List String
  google_ads_postal_codes : List String
deriving DecidableEq

structure TargetingResult where
  postal_codes : List String
  postal_code_system : String
  coverage : List OutcodeStats
  platform_serializations : PlatformSerializations
deriving DecidableEq

/-- The comparator `(a, b) => a.outcode.localeCompare(b.outcode)`:
`localeCompare` with the default locale orders case-insensitively first
(case is a lower-level difference); ties are broken by code order, and the
sort is stable. -/
def covLeRel (a b : OutcodeStats) : Prop :=
  (strLtChars (jsToUpper a.outcode).data (jsToUpper b.outcode).data ||
   (jsToUpper a.outcode = jsToUpper b.outcode && strLe a.outcode b.outcode)) = true

instance : DecidableRel covLeRel := fun _ _ => instDecidableEqBool _ true

/-- The tail of `resolveTargeting`: deduplicate, sort, serialize. -/
def serializeTargeting (outcodes : List String) (statsList : List OutcodeStats) :
    TargetingResult :=
  let uniq := sortStrings (jsSetDedup outcodes)
  let metaBulkText := String.intercalate "\n" uniq
  { postal_codes := uniq,
    postal_code_system := "GB_POSTCODE_DISTRICT",
    coverage := List.insertionSort covLeRel statsList,
    platform_serializations :=
      { meta_bulk_text := metaBulkText,
        tiktok_postal_codes := uniq,
        linkedin_postal_codes := uniq,
        pinterest_postal_codes := uniq,
        google_ads_postal_codes := uniq } }

/-! ## `resolveTargeting`

The pure model takes the reference dataset explicitly (the JS function
reaches it through the connection pool); the failure behaviour of the pool
is modelled separately by `resolveTargetingE` below. -/

def resolveTargeting (db : GeoDb) (jobLocation : String) : TargetingResult :=
  match extractOutcodeFromPostcode jobLocation with
  | some outcodeFromPC =>
    let stats := fetchOutcodeStats db [outcodeFromPC]
    (match jsMapGet stats outcodeFromPC with
     | some item => serializeTargeting [outcodeFromPC] [item]
     | none => serializeTargeting [outcodeFromPC] [])
  | none =>
    if jobLocation ≠ "" ∧ jsTrim jobLocation ≠ "" then
      let area := jsTrim jobLocation
      let expanded := expandAreaToOutcodes db area
      if expanded ≠ [] then
        let stats := fetchOutcodeStats db expanded
        serializeTargeting expanded (expanded.filterMap (fun oc => jsMapGet stats oc))
      else serializeTargeting [] []
    else serializeTargeting [] []

/-! ## Failure behaviour

`resolveTargeting` contains no `try`/`catch`: a rejected `pool.execute`
promise rejects the `resolveTargeting` promise itself.  `DbIface` is the
fallible view of the two queries, `Except.error` standing for a rejected
promise; `dbIfaceOf` is the view backed by a reachable dataset. -/

structure DbIface where
  queryArea : String → Except String (List String)
  queryStats : List String → Except String (List (String × OutcodeStats))

def dbIfaceOf (db : GeoDb) : DbIface :=
  { queryArea := fun loc => .ok (expandAreaToOutcodes db loc),
    queryStats := fun ocs => .ok (fetchOutcodeStats db ocs) }

/-- A pool whose every query fails (connection refused, timeout, ...). -/
def failingIface (msg : String) : DbIface :=
  { queryArea := fun _ => .error msg, queryStats := fun _ => .error msg }

def resolveTargetingE (iface : DbIface) (jobLocation : String) :
    Except String TargetingResult :=
  match extractOutcodeFromPostcode jobLocation with
  | some outcodeFromPC =>
    match iface.queryStats [outcodeFromPC] with
    | .error e => .error e
    | .ok stats =>
      match jsMapGet stats outcodeFromPC with
      | some item => .ok (serializeTargeting [outcodeFromPC] [item])
      | none => .ok (serializeTargeting [outcodeFromPC] [])
  | none =>
    if jobLocation ≠ "" ∧ jsTrim jobLocation ≠ "" then
      match iface.queryArea (jsTrim jobLocation) with
      | .error e => .error e
      | .ok expanded =>
        if expanded ≠ [] then
          match iface.queryStats expanded with
          | .error e => .error e
          | .ok stats =>
            .ok (serializeTargeting expanded
              (expanded.filterMap (fun oc => jsMapGet stats oc)))
        else .ok (serializeTargeting [] [])
    else .ok (serializeTargeting [] [])

/-- With a reachable dataset the fallible resolver never fails and agrees
with the pure model. -/
theorem resolveTargetingE_ok (db : GeoDb) (jobLocation : String) :
    resolveTargetingE (dbIfaceOf db) jobLocation =
      .ok (resolveTargeting db jobLocation) := by
  unfold resolveTargetingE resolveTargeting dbIfaceOf
  cases extractOutcodeFromPostcode jobLocation with
  | some oc => cases h3 : jsMapGet (fetchOutcodeStats db [oc]) oc <;> simp [h3]
  | none =>
    by_cases h : jobLocation ≠ "" ∧ jsTrim jobLocation ≠ ""
    · simp only [if_pos h]
      by_cases h2 : expandAreaToOutcodes db (jsTrim jobLocation) ≠ []
      · simp [h2]
      · simp [h2]
    · simp only [if_neg h]

/-! ## `getDistrictsByCounty` (from `locations-mysql.cjs`)

```js
async function getDistrictsByCounty(countyLike) {
  const p = await ensurePool();
  if (!p) return [];
  if (!countyLike || !countyLike.trim()) return [];
  const needle = countyLike.includes("%") ? countyLike.trim() : "%" + countyLike.trim() + "%";
  try { ...SELECT DISTINCT POSTCODE_DISTRICT WHERE UPPER(COUNTY_UNITARY) LIKE UPPER(?)...
    return rows.map(r => String(r.POSTCODE_DISTRICT).toUpperCase());
  } catch (e) { ...; return []; }
}
```

The pool is `Option` (`ensurePool` returns `null` on connection failure);
the query itself is a fallible function so that a thrown query error can
be modelled. -/

/-- The needle computation: a caller-supplied `%` is honoured verbatim. -/
def likeNeedle (countyLike : String) : String :=
  if countyLike.data.contains '%' then jsTrim countyLike
  else "%" ++ jsTrim countyLike ++ "%"

/-- JavaScript `String(x)` on a nullable value. -/
def jsStringOfNullable : Option String → String
  | none => "null"
  | some s => s

def getDistrictsByCounty
    (pool : Option (String → Except String (List (Option String))))
    (countyLike : String) : List String :=
  match pool with
  | none => []
  | some runQuery =>
    if countyLike = "" ∨ jsTrim countyLike = "" then []
    else
      match runQuery (likeNeedle countyLike) with
      | .error _ => []
      | .ok rows => rows.map (fun r => jsToUpper (jsStringOfNullable r))

/-! ## Concrete datasets (used in examples, witnesses and counterexamples) -/

def emptyDb : GeoDb := { names := [], stats := [] }

def mkNamesRow (oc county : String) : OsOpenNamesRow :=
  { POSTCODE_DISTRICT := some oc, COUNTY_UNITARY := some county,
    DISTRICT_BOROUGH := none, REGION := none }

/-- The end-to-end scenario of the spec: outcodes `G64`, `KA10`, `KA11`
all tagged county "Ayrshire", stats present only for `KA10`/`KA11`. -/
def ayrDb : GeoDb :=
  { names := [mkNamesRow "KA10" "South Ayrshire", mkNamesRow "G64" "Ayrshire",
              mkNamesRow "KA11" "North Ayrshire"],
    stats := [{ outcode := "KA10", approx_radius_km := .num 4,
                approx_diameter_km := .num 8, centroid_easting_m := .num 100,
                centroid_northing_m := .num 200 },
              { outcode := "KA11", approx_radius_km := .num 5,
                approx_diameter_km := .num 10, centroid_easting_m := .num 300,
                centroid_northing_m := .num 400 }] }

/-- A dataset whose only reference row stores a lower-case outcode. -/
def lowercaseDb : GeoDb :=
  { names := [mkNamesRow "g64" "Ayrshire"], stats := [] }

/-- A dataset whose stats row for `G64` carries a non-numeric
`approx_radius_km` cell. -/
def corruptStatsDb : GeoDb :=
  { names := [],
    stats := [{ outcode := "G64", approx_radius_km := .str "N/A",
                approx_diameter_km := .num 9, centroid_easting_m := .num 1,
                centroid_northing_m := .num 2 }] }

example : (resolveTargeting ayrDb "Ayrshire").postal_codes =
    ["G64", "KA10", "KA11"] := by decide
example : (resolveTargeting ayrDb "Ayrshire").coverage.length = 2 := by decide
example : (resolveTargeting emptyDb "KA10").postal_codes = [] := by decide
example : (resolveTargeting ayrDb "G64 1AB").postal_codes = ["G64"] := by decide
example : (resolveTargeting emptyDb "").postal_codes = [] := by decide

/-! ## Properties of deduplication and sorting -/

theorem mem_jsSetDedupGo (a : String) :
    ∀ (l seen : List String), a ∈ jsSetDedupGo l seen ↔ a ∈ l ∧ a ∉ seen
  | [], seen => by simp [jsSetDedupGo]
  | x :: xs, seen => by
    by_cases hx : x ∈ seen
    · rw [jsSetDedupGo, if_pos hx, mem_jsSetDedupGo a xs seen]
      simp only [List.mem_cons]
      by_cases hax : a = x
      · subst hax
        tauto
      · tauto
    · rw [jsSetDedupGo, if_neg hx]
      simp only [List.mem_cons, mem_jsSetDedupGo a xs (x :: seen), List.mem_cons]
      by_cases hax : a = x
      · subst hax
        tauto
      · tauto

theorem mem_jsSetDedup (a : String) (l : List String) :
    a ∈ jsSetDedup l ↔ a ∈ l := by
  rw [jsSetDedup, mem_jsSetDedupGo]
  simp

theorem nodup_jsSetDedupGo : ∀ (l seen : List String), (jsSetDedupGo l seen).Nodup
  | [], _ => List.nodup_nil
  | x :: xs, seen => by
    by_cases hx : x ∈ seen
    · rw [jsSetDedupGo, if_pos hx]
      exact nodup_jsSetDedupGo xs seen
    · rw [jsSetDedupGo, if_neg hx]
      refine List.nodup_cons.2 ⟨fun hmem => ?_, nodup_jsSetDedupGo xs (x :: seen)⟩
      exact ((mem_jsSetDedupGo x xs (x :: seen)).1 hmem).2 (List.mem_cons_self x seen)

theorem nodup_jsSetDedup (l : List String) : (jsSetDedup l).Nodup :=
  nodup_jsSetDedupGo l []

theorem jsSetDedupGo_eq_self : ∀ (l seen : List String), l.Nodup →
    (∀ a ∈ l, a ∉ seen) → jsSetDedupGo l seen = l
  | [], _, _, _ => rfl
  | x :: xs, seen, hnd, hdisj => by
    rw [jsSetDedupGo, if_neg (hdisj x (List.mem_cons_self x xs))]
    congr 1
    refine jsSetDedupGo_eq_self xs (x :: seen) (List.nodup_cons.1 hnd).2 ?_
    intro a ha hmem
    rcases List.mem_cons.1 hmem with rfl | h
    · exact (List.nodup_cons.1 hnd).1 ha
    · exact hdisj a (List.mem_cons_of_mem _ ha) h

/-- `new Set` on an already-duplicate-free array is the identity. -/
theorem jsSetDedup_eq_self (l : List String) (h : l.Nodup) : jsSetDedup l = l :=
  jsSetDedupGo_eq_self l [] h (by simp)

theorem sortStrings_perm (l : List String) : List.Perm (sortStrings l) l :=
  List.perm_insertionSort strLeRel l

theorem sortStrings_sorted (l : List String) :
    (sortStrings l).Sorted strLeRel :=
  List.sorted_insertionSort strLeRel l

theorem mem_sortStrings (a : String) (l : List String) :
    a ∈ sortStrings l ↔ a ∈ l :=
  (sortStrings_perm l).mem_iff

theorem sortStrings_nodup (l : List String) (h : l.Nodup) :
    (sortStrings l).Nodup :=
  ((sortStrings_perm l).nodup_iff).2 h

theorem sortStrings_length (l : List String) :
    (sortStrings l).length = l.length :=
  (sortStrings_perm l).length_eq

/-- The canonical output list: membership, duplicate-freedom, sortedness. -/
theorem canonical_facts (l : List String) :
    (∀ a, a ∈ sortStrings (jsSetDedup l) ↔ a ∈ l) ∧
      (sortStrings (jsSetDedup l)).Nodup ∧
      (sortStrings (jsSetDedup l)).Sorted strLeRel :=
  ⟨fun a => (mem_sortStrings a _).trans (mem_jsSetDedup a l),
   sortStrings_nodup _ (nodup_jsSetDedup l), sortStrings_sorted _⟩

/-! ## Properties of the serializer -/

theorem serializeTargeting_postal_codes (ocs : List String)
    (sl : List OutcodeStats) :
    (serializeTargeting ocs sl).postal_codes = sortStrings (jsSetDedup ocs) := rfl

theorem serializeTargeting_coverage_perm (ocs : List String)
    (sl : List OutcodeStats) : List.Perm (serializeTargeting ocs sl).coverage sl :=
  List.perm_insertionSort covLeRel sl

/-! ## Properties of the stats map -/

theorem mem_jsMapSet (m : List (String × OutcodeStats)) (k : String)
    (v : OutcodeStats) : ∀ p ∈ jsMapSet m k v, p = (k, v) ∨ p ∈ m := by
  intro p hp
  unfold jsMapSet at hp
  by_cases h : m.any (fun q => q.1 = k)
  · rw [if_pos h] at hp
    rcases List.mem_map.1 hp with ⟨q, hq, hq2⟩
    by_cases h2 : q.1 = k
    · rw [if_pos h2] at hq2
      exact Or.inl hq2.symm
    · rw [if_neg h2] at hq2
      exact Or.inr (hq2 ▸ hq)
  · rw [if_neg h] at hp
    rcases List.mem_append.1 hp with h2 | h2
    · exact Or.inr h2
    · exact Or.inl (List.mem_singleton.1 h2)

theorem jsMapSet_hasKey (m : List (String × OutcodeStats)) (k : String)
    (v : OutcodeStats) : (jsMapSet m k v).any (fun q => q.1 = k) = true := by
  unfold jsMapSet
  by_cases h : m.any (fun q => q.1 = k)
  · rw [if_pos h]
    rcases List.any_eq_true.1 h with ⟨q, hq, hq2⟩
    refine List.any_eq_true.2 ⟨(k, v), ?_, by simp⟩
    refine List.mem_map.2 ⟨q, hq, ?_⟩
    rw [if_pos (by simpa using hq2)]
  · rw [if_neg h]
    exact List.any_eq_true.2 ⟨(k, v), List.mem_append_right _ (by simp), by simp⟩

theorem jsMapSet_hasKey_mono (m : List (String × OutcodeStats)) (k k2 : String)
    (v : OutcodeStats) (h : m.any (fun q => q.1 = k2) = true) :
    (jsMapSet m k v).any (fun q => q.1 = k2) = true := by
  unfold jsMapSet
  rcases List.any_eq_true.1 h with ⟨q, hq, hq2⟩
  by_cases hk : m.any (fun q => q.1 = k)
  · rw [if_pos hk]
    by_cases h2 : q.1 = k
    · refine List.any_eq_true.2 ⟨(k, v), List.mem_map.2 ⟨q, hq, by rw [if_pos h2]⟩, ?_⟩
      simp only [decide_eq_true_eq] at hq2 ⊢
      rw [← h2, hq2]
    · exact List.any_eq_true.2 ⟨q, List.mem_map.2 ⟨q, hq, by rw [if_neg h2]⟩, hq2⟩
  · rw [if_neg hk]
    exact List.any_eq_true.2 ⟨q, List.mem_append_left _ hq, hq2⟩

/-- Every entry of the fold-constructed stats map is the `Number`-coerced
image of one of the folded rows (no record is dropped or synthesised). -/
theorem foldl_jsMapSet_shape :
    ∀ (rows : List StatsRow) (m : List (String × OutcodeStats)),
      ∀ p ∈ rows.foldl (fun m r => jsMapSet m r.outcode (mkStats r)) m,
        (∃ r ∈ rows, p = (r.outcode, mkStats r)) ∨ p ∈ m
  | [], m => fun p hp => Or.inr hp
  | r0 :: rows, m => by
    intro p hp
    rcases foldl_jsMapSet_shape rows (jsMapSet m r0.outcode (mkStats r0)) p hp with
      ⟨r, hr, hpr⟩ | hpm
    · exact Or.inl ⟨r, List.mem_cons_of_mem _ hr, hpr⟩
    · rcases mem_jsMapSet _ _ _ p hpm with hpe | hpm2
      · exact Or.inl ⟨r0, List.mem_cons_self _ _, hpe⟩
      · exact Or.inr hpm2

/-- Conversely, every folded row leaves an entry under its key. -/
theorem foldl_jsMapSet_hasKey :
    ∀ (rows : List StatsRow) (m : List (String × OutcodeStats)) (r0 : StatsRow),
      r0 ∈ rows ∨ m.any (fun q => q.1 = r0.outcode) = true →
      (rows.foldl (fun m r => jsMapSet m r.outcode (mkStats r)) m).any
        (fun q => q.1 = r0.outcode) = true
  | [], m, r0 => by
    rintro (h | h)
    · cases h
    · exact h
  | r1 :: rows, m, r0 => by
    rintro (h | h)
    · rcases List.mem_cons.1 h with rfl | h2
      · exact foldl_jsMapSet_hasKey rows _ r0 (Or.inr (jsMapSet_hasKey m _ _))
      · exact foldl_jsMapSet_hasKey rows _ r0 (Or.inl h2)
    · exact foldl_jsMapSet_hasKey rows _ r0 (Or.inr (jsMapSet_hasKey_mono m _ _ _ h))

theorem jsMapGet_eq_some (m : List (String × OutcodeStats)) (k : String)
    (v : OutcodeStats) (h : jsMapGet m k = some v) : (k, v) ∈ m := by
  unfold jsMapGet at h
  rcases hfind : m.find? (fun p => p.1 = k) with _ | p0
  · rw [hfind] at h
    exact Option.noConfusion h
  · rw [hfind] at h
    have hp0 : p0.1 = k := by simpa using List.find?_some hfind
    have hmem := List.mem_of_find?_eq_some hfind
    have hv : p0.2 = v := by simpa using h
    have : p0 = (k, v) := Prod.ext hp0 hv
    exact this ▸ hmem

theorem jsMapGet_isSome_of_hasKey (m : List (String × OutcodeStats))
    (k : String) (h : m.any (fun q => q.1 = k) = true) :
    (jsMapGet m k).isSome = true := by
  unfold jsMapGet
  rcases List.any_eq_true.1 h with ⟨q, hq, hq2⟩
  have : (m.find? (fun p => p.1 = k)).isSome := by
    rw [List.find?_isSome]
    exact ⟨q, hq, hq2⟩
  rcases Option.isSome_iff_exists.1 this with ⟨p0, hp0⟩
  rw [hp0]
  rfl

/-- Coverage records returned by a `get` on the stats map: keyed by the
requested outcode, and each is the `Number`-coerced image of an actual
stats row — rows with non-numeric cells included. -/
theorem fetchOutcodeStats_get_shape (db : GeoDb) (ocs : List String)
    (k : String) (v : OutcodeStats)
    (h : jsMapGet (fetchOutcodeStats db ocs) k = some v) :
    v.outcode = k ∧ ∃ r ∈ db.stats, r.outcode = k ∧ v = mkStats r := by
  have hmem := jsMapGet_eq_some _ _ _ h
  unfold fetchOutcodeStats at hmem
  by_cases hocs : ocs = []
  · rw [if_pos hocs] at hmem
    cases hmem
  · rw [if_neg hocs] at hmem
    rcases foldl_jsMapSet_shape _ _ _ hmem with ⟨r, hr, hpr⟩ | hfalse
    · have hk : r.outcode = k := (congrArg Prod.fst hpr).symm
      have hv : v = mkStats r := (congrArg Prod.snd hpr)
      refine ⟨by rw [hv, mkStats, hk], r, List.mem_of_mem_filter hr, hk, hv⟩
    · cases hfalse

/-- A stats row whose outcode was requested always yields a map entry:
`fetchOutcodeStats` never drops a record. -/
theorem fetchOutcodeStats_get_isSome (db : GeoDb) (ocs : List String)
    (r : StatsRow) (hr : r ∈ db.stats) (hin : r.outcode ∈ ocs) :
    (jsMapGet (fetchOutcodeStats db ocs) r.outcode).isSome = true := by
  unfold fetchOutcodeStats
  have hocs : ocs ≠ [] := by
    intro h
    rw [h] at hin
    cases hin
  rw [if_neg hocs]
  refine jsMapGet_isSome_of_hasKey _ _ ?_
  refine foldl_jsMapSet_hasKey _ _ _ (Or.inl ?_)
  refine List.mem_filter.2 ⟨hr, ?_⟩
  simpa using hin

/-! ## Properties of the area expansion -/

theorem expandAreaToOutcodes_nodup (db : GeoDb) (loc : String) :
    (expandAreaToOutcodes db loc).Nodup :=
  sortStrings_nodup _ (nodup_jsSetDedup _)

/-- `expandAreaToOutcodes` returns exactly the non-empty reference-table
outcodes of rows whose county, district or region matches the wrapped
pattern. -/
theorem mem_expandAreaToOutcodes (db : GeoDb) (loc oc : String) :
    oc ∈ expandAreaToOutcodes db loc ↔
      ∃ r ∈ db.names, r.POSTCODE_DISTRICT = some oc ∧ oc ≠ "" ∧
        (likeCI (expandPattern loc) r.COUNTY_UNITARY = true ∨
         likeCI (expandPattern loc) r.DISTRICT_BOROUGH = true ∨
         likeCI (expandPattern loc) r.REGION = true) := by
  unfold expandAreaToOutcodes
  rw [mem_sortStrings, mem_jsSetDedup, List.mem_map]
  constructor
  · rintro ⟨r, hr, rfl⟩
    rcases List.mem_filter.1 hr with ⟨hrdb, hmatch⟩
    unfold rowMatchesArea at hmatch
    simp only [Bool.and_eq_true, decide_eq_true_eq, Bool.or_eq_true, and_assoc,
      or_assoc] at hmatch
    obtain ⟨hnn, hne, hlike⟩ := hmatch
    rcases hopt : r.POSTCODE_DISTRICT with _ | x
    · exact absurd hopt hnn
    · rw [hopt] at hne
      refine ⟨r, hrdb, by simp [hopt], ?_, hlike⟩
      simp only [Option.getD_some]
      intro h
      exact hne (by rw [h])
  · rintro ⟨r, hrdb, hopt, hne, hlike⟩
    refine ⟨r, List.mem_filter.2 ⟨hrdb, ?_⟩, by rw [hopt]; rfl⟩
    unfold rowMatchesArea
    simp only [Bool.and_eq_true, decide_eq_true_eq, Bool.or_eq_true, and_assoc,
      or_assoc]
    refine ⟨by rw [hopt]; exact fun h => Option.noConfusion h, ?_, hlike⟩
    rw [hopt]
    intro h
    exact hne (by simpa using h)

/-! ## `LIKE` patterns: wrapped literals are substring tests -/

/-- A pattern character with no special meaning for `LIKE`. -/
def likePlain (c : Char) : Prop := c ≠ '%' ∧ c ≠ '_' ∧ c ≠ '\\'

theorem likeMatch_percent (ps ts : List Char) :
    likeMatch ('%' :: ps) ts = ts.tails.any (fun t => likeMatch ps t) := by
  conv_lhs => unfold likeMatch
  rw [if_pos rfl]

theorem likeMatch_underscore (ps ts : List Char) :
    likeMatch ('_' :: ps) ts =
      match ts with
      | [] => false
      | _ :: ts2 => likeMatch ps ts2 := by
  conv_lhs => unfold likeMatch
  rw [if_neg (by decide), if_pos rfl]

theorem likeMatch_plain (c : Char) (h : likePlain c) (ps ts : List Char) :
    likeMatch (c :: ps) ts =
      match ts with
      | [] => false
      | t :: ts2 => t = c && likeMatch ps ts2 := by
  obtain ⟨h1, h2, h3⟩ := h
  conv_lhs => unfold likeMatch
  rw [if_neg h1, if_neg h2, if_neg h3]

theorem likeMatch_percent_iff (ps ts : List Char) :
    likeMatch ('%' :: ps) ts = true ↔ ∃ t, t <:+ ts ∧ likeMatch ps t = true := by
  rw [likeMatch_percent, List.any_eq_true]
  constructor
  · rintro ⟨t, ht, h⟩
    exact ⟨t, (List.mem_tails t ts).1 ht, h⟩
  · rintro ⟨t, ht, h⟩
    exact ⟨t, (List.mem_tails t ts).2 ht, h⟩

theorem likeMatch_percent_nil (ts : List Char) : likeMatch ['%'] ts = true := by
  rw [likeMatch_percent_iff]
  exact ⟨[], List.nil_suffix, rfl⟩

theorem likeMatch_append_plain :
    ∀ (p : List Char), (∀ c ∈ p, likePlain c) → ∀ (ps ts : List Char),
      (likeMatch (p ++ ps) ts = true ↔ ∃ t2, ts = p ++ t2 ∧ likeMatch ps t2 = true)
  | [], _, ps, ts => by simp
  | c :: p, hp, ps, ts => by
    rw [List.cons_append, likeMatch_plain c (hp c (by simp))]
    cases ts with
    | nil => simp
    | cons t ts2 =>
      simp only [Bool.and_eq_true, decide_eq_true_eq,
        likeMatch_append_plain p (fun c2 hc => hp c2 (by simp [hc])) ps ts2,
        List.cons_append, List.cons.injEq]
      constructor
      · rintro ⟨rfl, t2, rfl, h⟩
        exact ⟨t2, ⟨rfl, rfl⟩, h⟩
      · rintro ⟨t2, ⟨rfl, rfl⟩, h⟩
        exact ⟨rfl, t2, rfl, h⟩

/-- A `%`-wrapped literal pattern matches exactly the strings containing
the literal as a contiguous substring. -/
theorem likeMatch_wrap_iff (p : List Char) (hp : ∀ c ∈ p, likePlain c)
    (ts : List Char) :
    (likeMatch ('%' :: (p ++ ['%'])) ts = true ↔ ∃ pre post, pre ++ p ++ post = ts) := by
  rw [likeMatch_percent_iff]
  constructor
  · rintro ⟨t, ht, h⟩
    rw [likeMatch_append_plain p hp] at h
    rcases h with ⟨t2, rfl, _⟩
    rcases ht with ⟨pre, rfl⟩
    exact ⟨pre, t2, by simp⟩
  · rintro ⟨pre, post, rfl⟩
    refine ⟨p ++ post, ⟨pre, by simp⟩, ?_⟩
    rw [likeMatch_append_plain p hp]
    exact ⟨post, rfl, likeMatch_percent_nil post⟩

/-- A doubled leading `%` is equivalent to a single one. -/
theorem likeMatch_percent_percent (ps ts : List Char) :
    likeMatch ('%' :: '%' :: ps) ts = likeMatch ('%' :: ps) ts := by
  rw [Bool.eq_iff_iff, likeMatch_percent_iff, likeMatch_percent_iff]
  constructor
  · rintro ⟨t, ht, h⟩
    rw [likeMatch_percent_iff] at h
    rcases h with ⟨t2, ht2, h2⟩
    exact ⟨t2, ht2.trans ht, h2⟩
  · rintro ⟨t, ht, h⟩
    exact ⟨ts, List.suffix_refl ts, (likeMatch_percent_iff ps ts).2 ⟨t, ht, h⟩⟩

/-- A doubled trailing `%` is equivalent to a single one (for patterns
without escape characters). -/
theorem likeMatch_trailing_percent :
    ∀ (qs : List Char), '\\' ∉ qs → ∀ ts : List Char,
      likeMatch (qs ++ ['%', '%']) ts = likeMatch (qs ++ ['%']) ts
  | [], _, ts => by
    rw [List.nil_append, List.nil_append,
      show (['%', '%'] : List Char) = '%' :: ['%'] from rfl,
      likeMatch_percent_percent]
  | q :: qs, h, ts => by
    have hqs : '\\' ∉ qs := fun hh => h (List.mem_cons_of_mem _ hh)
    by_cases hq : q = '%'
    · subst hq
      rw [List.cons_append, List.cons_append, likeMatch_percent, likeMatch_percent]
      congr 1
      funext t
      exact likeMatch_trailing_percent qs hqs t
    · by_cases hq2 : q = '_'
      · subst hq2
        rw [List.cons_append, List.cons_append, likeMatch_underscore,
          likeMatch_underscore]
        cases ts with
        | nil => rfl
        | cons t ts2 => exact likeMatch_trailing_percent qs hqs ts2
      · have hpl : likePlain q :=
          ⟨hq, hq2, fun hb => h (by rw [hb]; exact List.mem_cons_self _ _)⟩
        rw [List.cons_append, List.cons_append, likeMatch_plain q hpl,
          likeMatch_plain q hpl]
        cases ts with
        | nil => rfl
        | cons t ts2 =>
          show (decide (t = q) && likeMatch (qs ++ ['%', '%']) ts2) =
            (decide (t = q) && likeMatch (qs ++ ['%']) ts2)
          rw [likeMatch_trailing_percent qs hqs ts2]

/-! ## Case-insensitive substring containment -/

/-- The spec-side notion implemented by the free-text expansion: the field
contains the needle as a case-insensitive substring (`NULL` contains
nothing). -/
def ciContains (needle : String) (field : Option String) : Prop :=
  match field with
  | none => False
  | some t => (jsToUpper needle).data <:+: (jsToUpper t).data

instance (c : Char) : Decidable (likePlain c) := by
  unfold likePlain
  infer_instance

/-- The ASCII case map sends no character to a `LIKE` metacharacter that
was not one already. -/
theorem likePlain_toUpper (c : Char) (h : likePlain c) :
    likePlain (Char.toUpper c) := by
  obtain ⟨h1, h2, h3⟩ := h
  show likePlain (if c.toNat ≥ 97 ∧ c.toNat ≤ 122 then Char.ofNat (c.toNat - 32) else c)
  by_cases hc : c.toNat ≥ 97 ∧ c.toNat ≤ 122
  · rw [if_pos hc]
    obtain ⟨hl, hu⟩ := hc
    have h3 : 65 ≤ c.toNat - 32 := by omega
    have h4 : c.toNat - 32 ≤ 90 := by omega
    generalize c.toNat - 32 = m at h3 h4
    interval_cases m <;> decide
  · rw [if_neg hc]
    exact ⟨h1, h2, h3⟩

theorem jsToUpper_expandPattern (s : String) :
    (jsToUpper (expandPattern s)).data = '%' :: ((jsToUpper s).data ++ ['%']) := by
  show List.map Char.toUpper (("%" ++ s ++ "%").data) = _
  rw [String.data_append, String.data_append]
  show List.map Char.toUpper (['%'] ++ s.data ++ ['%']) = _
  rw [List.map_append, List.map_append]
  rfl

/-- On wildcard-free area text, the `CONCAT('%', ?, '%')` query of
`expandAreaToOutcodes` is exactly a case-insensitive substring test. -/
theorem likeCI_wrap_iff (needle : String) (field : Option String)
    (hplain : ∀ c ∈ needle.data, likePlain c) :
    (likeCI (expandPattern needle) field = true ↔ ciContains needle field) := by
  cases field with
  | none => simp [likeCI, ciContains]
  | some t =>
    unfold likeCI ciContains
    rw [jsToUpper_expandPattern, likeMatch_wrap_iff]
    · exact Iff.rfl
    · intro c hc
      rcases List.mem_map.1 hc with ⟨c0, hc0, rfl⟩
      exact likePlain_toUpper c0 (hplain c0 hc0)

/-- Wrapping an already-wrapped pattern in a second pair of `%` selects
exactly the same strings. -/
theorem likeCI_rewrap (s : String) (h : '\\' ∉ (jsToUpper s).data)
    (field : Option String) :
    likeCI (expandPattern (expandPattern s)) field = likeCI (expandPattern s) field := by
  cases field with
  | none => rfl
  | some t =>
    have hns : '\\' ∉ ('%' :: (jsToUpper s).data : List Char) := by
      intro hmem
      rcases List.mem_cons.1 hmem with hx | hx
      · exact absurd hx.symm (by decide)
      · exact h hx
    show likeMatch (jsToUpper (expandPattern (expandPattern s))).data (jsToUpper t).data
        = likeMatch (jsToUpper (expandPattern s)).data (jsToUpper t).data
    rw [jsToUpper_expandPattern, jsToUpper_expandPattern]
    have e1 : ('%' :: (('%' :: ((jsToUpper s).data ++ ['%'])) ++ ['%']) : List Char)
        = '%' :: '%' :: ((jsToUpper s).data ++ ['%', '%']) := by simp
    rw [e1, likeMatch_percent_percent]
    have e2 : ('%' :: ((jsToUpper s).data ++ ['%', '%']) : List Char)
        = ('%' :: (jsToUpper s).data) ++ ['%', '%'] := by simp
    have e3 : ('%' :: ((jsToUpper s).data ++ ['%']) : List Char)
        = ('%' :: (jsToUpper s).data) ++ ['%'] := by simp
    rw [e2, e3, likeMatch_trailing_percent ('%' :: (jsToUpper s).data) hns]

/-- `expandAreaToOutcodes` on pre-wrapped area text behaves exactly as on
the bare text: the extra pair of wildcards it adds is harmless. -/
theorem expandAreaToOutcodes_rewrap (db : GeoDb) (s : String)
    (h : '\\' ∉ (jsToUpper s).data) :
    expandAreaToOutcodes db ("%" ++ s ++ "%") = expandAreaToOutcodes db s := by
  have hrow : rowMatchesArea (expandPattern (expandPattern s)) =
      rowMatchesArea (expandPattern s) := by
    funext r
    unfold rowMatchesArea
    rw [likeCI_rewrap s h, likeCI_rewrap s h, likeCI_rewrap s h]
  show sortStrings (jsSetDedup
      ((db.names.filter (rowMatchesArea (expandPattern (expandPattern s)))).map
        (fun r => r.POSTCODE_DISTRICT.getD ""))) =
    sortStrings (jsSetDedup
      ((db.names.filter (rowMatchesArea (expandPattern s))).map
        (fun r => r.POSTCODE_DISTRICT.getD "")))
  rw [hrow]

/-! ## Characters of a regex-derived outcode -/

theorem splitTake_spec :
    ∀ (n : Nat) (p : Char → Bool) (cs a b : List Char),
      splitTake n p cs = some (a, b) → (∀ c ∈ a, p c = true) ∧ cs = a ++ b
  | 0, p, cs, a, b => by
    intro h
    unfold splitTake at h
    injection h with h2
    injection h2 with h3 h4
    subst h3
    subst h4
    exact ⟨fun c hc => absurd hc (List.not_mem_nil c), rfl⟩
  | n + 1, p, [], a, b => by
    intro h
    unfold splitTake at h
    cases h
  | n + 1, p, c :: cs, a, b => by
    intro h
    unfold splitTake at h
    by_cases hp : p c
    · rw [if_pos hp] at h
      rcases hrec : splitTake n p cs with _ | pr
      · rw [hrec] at h
        cases h
      · rw [hrec] at h
        obtain ⟨a2, b2⟩ := pr
        injection h with h2
        injection h2 with h3 h4
        subst h3
        subst h4
        obtain ⟨hall, rfl⟩ := splitTake_spec n p cs a2 b2 hrec
        refine ⟨?_, rfl⟩
        intro x hx
        rcases List.mem_cons.1 hx with rfl | hx2
        · exact hp
        · exact hall x hx2
    · rw [if_neg hp] at h
      cases h

theorem tryOutcodeSplit_chars (l d : Nat) (useL useW : Bool) (cs : List Char)
    (s : String) (h : tryOutcodeSplit l d useL useW cs = some s) :
    ∀ c ∈ s.data, isAlnumUpper c = true := by
  unfold tryOutcodeSplit at h
  split at h
  · cases h
  · next ls r1 h1 =>
    split at h
    · cases h
    · next ds r2 h2 =>
      split at h
      · cases h
      · next ol r3 h3 =>
        split at h
        · cases h
        · next ws r4 h4 =>
          split at h
          · next c0 c1 c2 =>
            split at h
            · next h5 =>
              obtain rfl : String.mk (ls ++ ds ++ ol) = s := Option.some.inj h
              have hls := (splitTake_spec l isUpperLetter cs ls r1 h1).1
              have hds := (splitTake_spec d isDigitChar r1 ds r2 h2).1
              have hol : ∀ c ∈ ol, isUpperLetter c = true := by
                by_cases hu : useL
                · rw [if_pos hu] at h3
                  exact (splitTake_spec 1 isUpperLetter r2 ol r3 h3).1
                · rw [if_neg hu] at h3
                  injection h3 with h6
                  injection h6 with h7 h8
                  subst h7
                  intro c hc
                  cases hc
              intro c hc
              rcases List.mem_append.1 hc with hc2 | hc2
              · rcases List.mem_append.1 hc2 with hc3 | hc3
                · unfold isAlnumUpper
                  rw [hls c hc3]
                  rfl
                · unfold isAlnumUpper
                  rw [hds c hc3]
                  simp
              · unfold isAlnumUpper
                rw [hol c hc2]
                rfl
            · cases h
          · cases h

theorem matchOutcodeRegex_chars (cs : List Char) (s : String)
    (h : matchOutcodeRegex cs = some s) : ∀ c ∈ s.data, isAlnumUpper c = true := by
  unfold matchOutcodeRegex at h
  have key : ∀ (alts : List (Nat × Nat × Bool × Bool)) (acc : Option String),
      (alts.foldl (fun acc alt =>
        match acc with
        | some r => some r
        | none => tryOutcodeSplit alt.1 alt.2.1 alt.2.2.1 alt.2.2.2 cs) acc) = some s →
      acc = some s ∨ ∃ alt : Nat × Nat × Bool × Bool,
        tryOutcodeSplit alt.1 alt.2.1 alt.2.2.1 alt.2.2.2 cs = some s := by
    intro alts
    induction alts with
    | nil => exact fun acc h2 => Or.inl h2
    | cons a alts ih =>
      intro acc h2
      rcases ih _ h2 with h3 | h3
      · cases acc with
        | some r => exact Or.inl h3
        | none => exact Or.inr ⟨a, h3⟩
      · exact Or.inr h3
  rcases key outcodeAlternatives none h with h2 | ⟨alt, h2⟩
  · cases h2
  · exact tryOutcodeSplit_chars alt.1 alt.2.1 alt.2.2.1 alt.2.2.2 cs s h2

/-- Every outcode produced by the full-postcode regex consists solely of
upper-case letters and digits (hence is upper-cased and contains no
whitespace). -/
theorem extractOutcodeFromPostcode_chars (input oc : String)
    (h : extractOutcodeFromPostcode input = some oc) :
    ∀ c ∈ oc.data, isAlnumUpper c = true := by
  unfold extractOutcodeFromPostcode at h
  by_cases he : input = ""
  · rw [if_pos he] at h
    cases h
  · rw [if_neg he] at h
    exact matchOutcodeRegex_chars _ _ h

/-! ## Path analysis of `resolveTargeting` -/

theorem jsSetDedup_singleton (a : String) : jsSetDedup [a] = [a] := by
  unfold jsSetDedup jsSetDedupGo
  rw [if_neg (List.not_mem_nil a)]
  rfl

theorem sortStrings_eq_self (l : List String) (h : l.Sorted strLeRel) :
    sortStrings l = l :=
  List.Sorted.insertionSort_eq h

theorem sortStrings_singleton (a : String) : sortStrings [a] = [a] := rfl

theorem serializeTargeting_single_postal (oc : String) (sl : List OutcodeStats) :
    (serializeTargeting [oc] sl).postal_codes = [oc] := by
  rw [serializeTargeting_postal_codes, jsSetDedup_singleton, sortStrings_singleton]

theorem resolveTargeting_pc (db : GeoDb) (loc oc : String)
    (h : extractOutcodeFromPostcode loc = some oc) :
    resolveTargeting db loc =
      (match jsMapGet (fetchOutcodeStats db [oc]) oc with
       | some item => serializeTargeting [oc] [item]
       | none => serializeTargeting [oc] []) := by
  unfold resolveTargeting
  rw [h]

theorem resolveTargeting_area (db : GeoDb) (loc : String)
    (h : extractOutcodeFromPostcode loc = none) (h2 : jsTrim loc ≠ "") :
    resolveTargeting db loc =
      (if expandAreaToOutcodes db (jsTrim loc) ≠ [] then
        serializeTargeting (expandAreaToOutcodes db (jsTrim loc))
          ((expandAreaToOutcodes db (jsTrim loc)).filterMap
            (fun oc => jsMapGet
              (fetchOutcodeStats db (expandAreaToOutcodes db (jsTrim loc))) oc))
      else serializeTargeting [] []) := by
  have h0 : loc ≠ "" := by
    intro he
    rw [he] at h2
    exact h2 rfl
  unfold resolveTargeting
  rw [h, if_pos ⟨h0, h2⟩]

theorem resolveTargeting_noloc (db : GeoDb) (loc : String)
    (h : extractOutcodeFromPostcode loc = none) (h2 : jsTrim loc = "") :
    resolveTargeting db loc = serializeTargeting [] [] := by
  unfold resolveTargeting
  rw [h, if_neg]
  rintro ⟨h3, h4⟩
  exact h4 h2

theorem expandAreaToOutcodes_sorted (db : GeoDb) (loc : String) :
    (expandAreaToOutcodes db loc).Sorted strLeRel :=
  sortStrings_sorted _

/-- On the free-text path the canonical output list is exactly the
expansion (which is already sorted and duplicate-free). -/
theorem resolveTargeting_area_postal (db : GeoDb) (loc : String)
    (h : extractOutcodeFromPostcode loc = none) (h2 : jsTrim loc ≠ "") :
    (resolveTargeting db loc).postal_codes = expandAreaToOutcodes db (jsTrim loc) := by
  rw [resolveTargeting_area db loc h h2]
  by_cases h3 : expandAreaToOutcodes db (jsTrim loc) ≠ []
  · rw [if_pos h3, serializeTargeting_postal_codes,
      jsSetDedup_eq_self _ (expandAreaToOutcodes_nodup db (jsTrim loc)),
      sortStrings_eq_self _ (expandAreaToOutcodes_sorted db (jsTrim loc))]
  · rw [if_neg h3, not_not.1 h3]
    rfl

theorem resolveTargeting_area_mem (db : GeoDb) (loc oc : String)
    (h : extractOutcodeFromPostcode loc = none) (h2 : jsTrim loc ≠ "") :
    (oc ∈ (resolveTargeting db loc).postal_codes ↔
      ∃ r ∈ db.names, r.POSTCODE_DISTRICT = some oc ∧ oc ≠ "" ∧
        (likeCI (expandPattern (jsTrim loc)) r.COUNTY_UNITARY = true ∨
         likeCI (expandPattern (jsTrim loc)) r.DISTRICT_BOROUGH = true ∨
         likeCI (expandPattern (jsTrim loc)) r.REGION = true)) := by
  rw [resolveTargeting_area_postal db loc h h2]
  exact mem_expandAreaToOutcodes db (jsTrim loc) oc

theorem resolveTargeting_postal_shape (db : GeoDb) (loc : String) :
    ∃ ocs, (resolveTargeting db loc).postal_codes = sortStrings (jsSetDedup ocs) := by
  rcases hpc : extractOutcodeFromPostcode loc with _ | oc
  · by_cases h2 : jsTrim loc = ""
    · rw [resolveTargeting_noloc db loc hpc h2]
      exact ⟨[], rfl⟩
    · rw [resolveTargeting_area db loc hpc h2]
      by_cases h3 : expandAreaToOutcodes db (jsTrim loc) ≠ []
      · rw [if_pos h3]
        exact ⟨_, rfl⟩
      · rw [if_neg h3]
        exact ⟨[], rfl⟩
  · rw [resolveTargeting_pc db loc oc hpc]
    rcases jsMapGet (fetchOutcodeStats db [oc]) oc with _ | item
    · exact ⟨[oc], rfl⟩
    · exact ⟨[oc], rfl⟩

/-- The canonical output list of any resolution is sorted and
duplicate-free. -/
theorem resolveTargeting_sorted_nodup (db : GeoDb) (loc : String) :
    (resolveTargeting db loc).postal_codes.Sorted strLeRel ∧
      (resolveTargeting db loc).postal_codes.Nodup := by
  rcases resolveTargeting_postal_shape db loc with ⟨ocs, he⟩
  rw [he]
  exact ⟨sortStrings_sorted _, sortStrings_nodup _ (nodup_jsSetDedup _)⟩

/-- The outcodes of entries harvested from the stats map form a sublist of
the queried outcode list. -/
theorem filterMapGet_outcodes_sublist (m : List (String × OutcodeStats))
    (hm : ∀ a v, jsMapGet m a = some v → v.outcode = a) :
    ∀ l : List String,
      List.Sublist ((l.filterMap (fun oc => jsMapGet m oc)).map (fun e => e.outcode)) l
  | [] => by simp
  | a :: l => by
    rcases hfa : jsMapGet m a with _ | v
    · rw [List.filterMap_cons_none hfa]
      exact (filterMapGet_outcodes_sublist m hm l).cons a
    · rw [List.filterMap_cons_some hfa, List.map_cons, hm a v hfa]
      exact (filterMapGet_outcodes_sublist m hm l).cons₂ a

/-! ## Coverage facts -/

theorem coverageFactsAux (db : GeoDb) (E : List String) (sl : List OutcodeStats)
    (hnd : E.Nodup) (hsorted : E.Sorted strLeRel)
    (hsl : sl = E.filterMap (fun oc => jsMapGet (fetchOutcodeStats db E) oc)) :
    (∀ e ∈ (serializeTargeting E sl).coverage,
      e.outcode ∈ (serializeTargeting E sl).postal_codes) ∧
    ((serializeTargeting E sl).coverage.map (fun e => e.outcode)).Nodup ∧
    (serializeTargeting E sl).coverage.length ≤
      (serializeTargeting E sl).postal_codes.length := by
  have hpostal : (serializeTargeting E sl).postal_codes = E := by
    rw [serializeTargeting_postal_codes, jsSetDedup_eq_self _ hnd,
      sortStrings_eq_self _ hsorted]
  have hperm := serializeTargeting_coverage_perm E sl
  have hm : ∀ a v, jsMapGet (fetchOutcodeStats db E) a = some v → v.outcode = a :=
    fun a v hv => (fetchOutcodeStats_get_shape db E a v hv).1
  have hsub : List.Sublist (sl.map (fun e => e.outcode)) E := by
    rw [hsl]
    exact filterMapGet_outcodes_sublist _ hm E
  refine ⟨?_, ?_, ?_⟩
  · intro e he
    rw [hpostal]
    exact hsub.subset (List.mem_map_of_mem _ (hperm.mem_iff.1 he))
  · refine ((hperm.map (fun e => e.outcode)).nodup_iff).2 ?_
    exact hnd.sublist hsub
  · rw [hpostal]
    calc (serializeTargeting E sl).coverage.length = sl.length := hperm.length_eq
      _ = (sl.map (fun e => e.outcode)).length := (List.length_map _ _).symm
      _ ≤ E.length := hsub.length_le

/-! ## Substring view of the free-text path -/

theorem rowMatch_ci_iff (needle : String) (hplain : ∀ c ∈ needle.data, likePlain c)
    (r : OsOpenNamesRow) :
    ((likeCI (expandPattern needle) r.COUNTY_UNITARY = true ∨
      likeCI (expandPattern needle) r.DISTRICT_BOROUGH = true ∨
      likeCI (expandPattern needle) r.REGION = true) ↔
     (ciContains needle r.COUNTY_UNITARY ∨ ciContains needle r.DISTRICT_BOROUGH ∨
      ciContains needle r.REGION)) := by
  rw [likeCI_wrap_iff _ _ hplain, likeCI_wrap_iff _ _ hplain,
    likeCI_wrap_iff _ _ hplain]

/-- On wildcard-free free-text input, membership in the result is exactly
case-insensitive substring containment in one of the three administrative
fields. -/
theorem resolveTargeting_area_mem_ci (db : GeoDb) (loc oc : String)
    (h : extractOutcodeFromPostcode loc = none) (h2 : jsTrim loc ≠ "")
    (hplain : ∀ c ∈ (jsTrim loc).data, likePlain c) :
    (oc ∈ (resolveTargeting db loc).postal_codes ↔
      ∃ r ∈ db.names, r.POSTCODE_DISTRICT = some oc ∧ oc ≠ "" ∧
        (ciContains (jsTrim loc) r.COUNTY_UNITARY ∨
         ciContains (jsTrim loc) r.DISTRICT_BOROUGH ∨
         ciContains (jsTrim loc) r.REGION)) := by
  rw [resolveTargeting_area_mem db loc oc h h2]
  refine exists_congr (fun r => ?_)
  refine and_congr_right (fun _ => and_congr_right (fun _ => and_congr_right (fun _ => ?_)))
  exact rowMatch_ci_iff (jsTrim loc) hplain r

/-! # Claims -/

/-- C1 (code bug at the failing input "GIR 0AA"): the regex's own comment
says it handles the GIR 0AA special case, and the spec requires that every
valid full UK postcode — GIR 0AA included — resolve to its outcode; but
`OUTCODE_REGEX` allows at most two letters before the first digit, so
"GIR 0AA" does not match, falls through to the free-text branch, and (with
no matching reference rows) resolves to the empty set instead of
`{"GIR"}`.  Ordinary formats are unaffected. -/
theorem c1_gir0aa_code_bug :
    extractOutcodeFromPostcode "GIR 0AA" = none ∧
    (resolveTargeting emptyDb "GIR 0AA").postal_codes = [] ∧
    extractOutcodeFromPostcode "G64 1AB" = some "G64" ∧
    extractOutcodeFromPostcode "g64 1ab" = some "G64" ∧
    extractOutcodeFromPostcode "G641AB" = some "G64" := by decide

/-- C2 (counterexample): a bare outcode is not specially recognised —
"KA10" goes through the free-text expansion, and with a reference dataset
holding no matching administrative names `resolveTargeting` returns the
empty set, not `{"KA10"}`. -/
theorem c2_bare_outcode_counterexample :
    (resolveTargeting emptyDb "KA10").postal_codes = [] ∧
    ([] : List String) ≠ ["KA10"] := by decide

/-- C2 (amended): an input consisting only of a bare outcode is handled as
free text: the result is exactly the set of reference-table outcodes whose
county, district or region contains the input as a case-insensitive
substring — a dataset round-trip is always required, and the input itself
is returned only when the reference data yields it. -/
theorem c2_bare_outcode_amended (db : GeoDb) :
    (resolveTargeting db "KA10").postal_codes = expandAreaToOutcodes db "KA10" ∧
    (∀ oc, oc ∈ (resolveTargeting db "KA10").postal_codes ↔
      ∃ r ∈ db.names, r.POSTCODE_DISTRICT = some oc ∧ oc ≠ "" ∧
        (ciContains "KA10" r.COUNTY_UNITARY ∨ ciContains "KA10" r.DISTRICT_BOROUGH ∨
         ciContains "KA10" r.REGION)) := by
  have hpc : extractOutcodeFromPostcode "KA10" = none := by decide
  have h2 : jsTrim "KA10" ≠ "" := by decide
  have htrim : jsTrim "KA10" = "KA10" := by decide
  constructor
  · rw [resolveTargeting_area_postal db "KA10" hpc h2, htrim]
  · intro oc
    have := resolveTargeting_area_mem_ci db "KA10" oc hpc h2 (by decide)
    rw [htrim] at this
    exact this

/-- C3: for wildcard-free free-text input that is not a full postcode, the
result is exactly the distinct outcodes of reference rows whose county,
district or region contains the (trimmed) input as a case-insensitive
substring, unioned across the three fields, each outcode once, sorted; an
input matching no rows yields the empty set (the membership equivalence
leaves no member to list). -/
theorem c3_free_text_union (db : GeoDb) (loc : String)
    (hpc : extractOutcodeFromPostcode loc = none)
    (htrim : jsTrim loc ≠ "")
    (hplain : ∀ c ∈ (jsTrim loc).data, likePlain c) :
    (∀ oc, oc ∈ (resolveTargeting db loc).postal_codes ↔
      ∃ r ∈ db.names, r.POSTCODE_DISTRICT = some oc ∧ oc ≠ "" ∧
        (ciContains (jsTrim loc) r.COUNTY_UNITARY ∨
         ciContains (jsTrim loc) r.DISTRICT_BOROUGH ∨
         ciContains (jsTrim loc) r.REGION)) ∧
    (resolveTargeting db loc).postal_codes.Sorted strLeRel ∧
    (resolveTargeting db loc).postal_codes.Nodup :=
  ⟨fun oc => resolveTargeting_area_mem_ci db loc oc hpc htrim hplain,
   (resolveTargeting_sorted_nodup db loc).1, (resolveTargeting_sorted_nodup db loc).2⟩

/-- C3 (witness): the end-to-end Ayrshire scenario. -/
theorem c3_free_text_union_witness :
    (resolveTargeting ayrDb "Ayrshire").postal_codes.Nodup ∧
    (resolveTargeting ayrDb "Ayrshire").postal_codes = ["G64", "KA10", "KA11"] ∧
    (resolveTargeting ayrDb "Ayrshire").coverage.length = 2 ∧
    (resolveTargeting emptyDb "Nowhereshire").postal_codes = [] :=
  ⟨(c3_free_text_union ayrDb "Ayrshire" (by decide) (by decide) (by decide)).2.2,
   by decide, by decide, by decide⟩

/-- C4 (counterexample): `resolveTargeting` contains no `try`/`catch`, so
a failing dataset query propagates out of the resolver as a rejected
promise (an `error`), on both the full-postcode and the free-text path —
it is not caught and turned into an empty result. -/
theorem c4_no_catch_counterexample :
    resolveTargetingE (failingIface "connection refused") "G64 1AB" =
      Except.error "connection refused" ∧
    resolveTargetingE (failingIface "connection refused") "Ayrshire" =
      Except.error "connection refused" := ⟨rfl, rfl⟩

/-- C4 (amended): the catch-and-degrade behaviour lives in
`getDistrictsByCounty` (`locations-mysql.cjs`), not in `resolveTargeting`:
with no pool (connection failure at `ensurePool`) or with a query that
throws, `getDistrictsByCounty` returns the empty list instead of
propagating the failure. -/
theorem c4_degrade_amended :
    (∀ countyLike : String, getDistrictsByCounty none countyLike = []) ∧
    (∀ countyLike msg : String,
      getDistrictsByCounty (some (fun _ => Except.error msg)) countyLike = []) := by
  constructor
  · intro c
    rfl
  · intro c msg
    show (if c = "" ∨ jsTrim c = "" then ([] : List String) else []) = []
    exact ite_self []

/-- C5 (counterexample): a stats record with a non-numeric
`approx_radius_km` cell is not dropped: it reaches the caller's coverage
list with a `NaN` (here `none`) field. -/
theorem c5_nan_counterexample :
    (resolveTargeting corruptStatsDb "G64 1AB").coverage =
      [{ outcode := "G64", approx_radius_km := none, approx_diameter_km := some 9,
         centroid_easting_m := some 1, centroid_northing_m := some 2 }] := by decide

/-- C5 (amended): `fetchOutcodeStats` coerces the four cells with
`Number(...)` and never filters: every map entry is the coercion of an
actual stats row (possibly with `NaN` fields), and every stats row whose
outcode was requested yields an entry — no record is dropped for carrying
a non-numeric or missing cell. -/
theorem c5_number_coercion_amended :
    (∀ (db : GeoDb) (ocs : List String) (k : String) (v : OutcodeStats),
      jsMapGet (fetchOutcodeStats db ocs) k = some v →
        v.outcode = k ∧ ∃ r ∈ db.stats, r.outcode = k ∧ v = mkStats r) ∧
    (∀ (db : GeoDb) (ocs : List String) (r : StatsRow),
      r ∈ db.stats → r.outcode ∈ ocs →
        (jsMapGet (fetchOutcodeStats db ocs) r.outcode).isSome = true) :=
  ⟨fetchOutcodeStats_get_shape, fetchOutcodeStats_get_isSome⟩

/-- C5 (witness): the corrupt row is kept, as the `Number`-coercion of the
stored record. -/
theorem c5_number_coercion_witness :
    (jsMapGet (fetchOutcodeStats corruptStatsDb ["G64"]) "G64").isSome = true ∧
    (({ outcode := "G64", approx_radius_km := none, approx_diameter_km := some 9,
        centroid_easting_m := some 1, centroid_northing_m := some 2 } :
          OutcodeStats).outcode = "G64" ∧
      ∃ r ∈ corruptStatsDb.stats, r.outcode = "G64" ∧
        ({ outcode := "G64", approx_radius_km := none, approx_diameter_km := some 9,
           centroid_easting_m := some 1, centroid_northing_m := some 2 } :
             OutcodeStats) = mkStats r) :=
  ⟨c5_number_coercion_amended.2 corruptStatsDb ["G64"]
      { outcode := "G64", approx_radius_km := .str "N/A",
        approx_diameter_km := .num 9, centroid_easting_m := .num 1,
        centroid_northing_m := .num 2 } (by decide) (by decide),
   c5_number_coercion_amended.1 corruptStatsDb ["G64"] "G64" _ (by decide)⟩

/-- C6: the serializer is a pure function — repeated serialization of the
same outcode/coverage input is identical, inputs are never mutated (there
is no mutation in a pure model) — `meta_bulk_text` is the sorted
`postal_codes` list joined by newlines, and the tiktok, linkedin,
pinterest and google entries are the `postal_codes` array verbatim. -/
theorem c6_serializer_deterministic (outcodes : List String)
    (statsList : List OutcodeStats) :
    serializeTargeting outcodes statsList = serializeTargeting outcodes statsList ∧
    (serializeTargeting outcodes statsList).platform_serializations.meta_bulk_text =
      String.intercalate "\n" (serializeTargeting outcodes statsList).postal_codes ∧
    (serializeTargeting outcodes statsList).postal_codes.Sorted strLeRel ∧
    (serializeTargeting outcodes statsList).platform_serializations.tiktok_postal_codes =
      (serializeTargeting outcodes statsList).postal_codes ∧
    (serializeTargeting outcodes statsList).platform_serializations.linkedin_postal_codes =
      (serializeTargeting outcodes statsList).postal_codes ∧
    (serializeTargeting outcodes statsList).platform_serializations.pinterest_postal_codes =
      (serializeTargeting outcodes statsList).postal_codes ∧
    (serializeTargeting outcodes statsList).platform_serializations.google_ads_postal_codes =
      (serializeTargeting outcodes statsList).postal_codes :=
  ⟨rfl, rfl, sortStrings_sorted _, rfl, rfl, rfl, rfl⟩

/-- C7 (counterexample): outcodes coming from the reference data are
passed through verbatim: a lower-case stored outcode reaches
`postal_codes` un-upper-cased. -/
theorem c7_normalization_counterexample :
    (resolveTargeting lowercaseDb "AYRSHIRE").postal_codes = ["g64"] ∧
    jsToUpper "g64" ≠ "g64" := by decide

/-- C7 (amended): `postal_codes` is always deduplicated and
lexicographically sorted; outcodes derived on the full-postcode path are
upper-case alphanumeric (hence trimmed); but reference-data outcodes are
emitted verbatim, without re-normalisation. -/
theorem c7_dedup_sort_amended (db : GeoDb) (loc : String) :
    (resolveTargeting db loc).postal_codes.Sorted strLeRel ∧
    (resolveTargeting db loc).postal_codes.Nodup ∧
    (∀ oc, extractOutcodeFromPostcode loc = some oc →
      (resolveTargeting db loc).postal_codes = [oc] ∧
        ∀ c ∈ oc.data, isAlnumUpper c = true) := by
  refine ⟨(resolveTargeting_sorted_nodup db loc).1,
    (resolveTargeting_sorted_nodup db loc).2, ?_⟩
  intro oc hpc
  refine ⟨?_, extractOutcodeFromPostcode_chars loc oc hpc⟩
  rw [resolveTargeting_pc db loc oc hpc]
  rcases jsMapGet (fetchOutcodeStats db [oc]) oc with _ | item
  · exact serializeTargeting_single_postal oc []
  · exact serializeTargeting_single_postal oc [item]

/-- C7 (witness). -/
theorem c7_dedup_sort_witness :
    (resolveTargeting ayrDb "G64 1AB").postal_codes.Nodup ∧
    (resolveTargeting ayrDb "G64 1AB").postal_codes = ["G64"] ∧
    (∀ c ∈ ("G64" : String).data, isAlnumUpper c = true) :=
  ⟨(c7_dedup_sort_amended ayrDb "G64 1AB").2.1,
   ((c7_dedup_sort_amended ayrDb "G64 1AB").2.2 "G64" (by decide)).1,
   ((c7_dedup_sort_amended ayrDb "G64 1AB").2.2 "G64" (by decide)).2⟩

/-- C8 (counterexample): `expandAreaToOutcodes` does not honour a
pre-wrapped pattern verbatim — `CONCAT('%', ?, '%')` wraps it in a second
pair of wildcards. -/
theorem c8_rewrap_counterexample :
    expandPattern "%AYRSHIRE%" = "%%AYRSHIRE%%" ∧
    "%%AYRSHIRE%%" ≠ "%AYRSHIRE%" := by decide

/-- C8 (amended): only `getDistrictsByCounty` honours a caller-supplied
`%` verbatim (its needle is the trimmed text unchanged);
`expandAreaToOutcodes` always adds a fresh pair of wildcards — which is
harmless, because a doubly-wrapped pattern selects exactly the same rows
as the singly-wrapped one. -/
theorem c8_wildcard_amended :
    (∀ countyLike : String, countyLike.data.contains '%' = true →
      likeNeedle countyLike = jsTrim countyLike) ∧
    (∀ (db : GeoDb) (s : String), '\\' ∉ (jsToUpper s).data →
      expandAreaToOutcodes db ("%" ++ s ++ "%") = expandAreaToOutcodes db s) := by
  constructor
  · intro c h
    unfold likeNeedle
    rw [if_pos h]
  · exact fun db s h => expandAreaToOutcodes_rewrap db s h

/-- C8 (witness). -/
theorem c8_wildcard_witness :
    likeNeedle "%AYRSHIRE%" = "%AYRSHIRE%" ∧
    expandAreaToOutcodes ayrDb ("%" ++ "Ayrshire" ++ "%") =
      expandAreaToOutcodes ayrDb "Ayrshire" :=
  ⟨(c8_wildcard_amended.1 "%AYRSHIRE%" (by decide)).trans (by decide),
   c8_wildcard_amended.2 ayrDb "Ayrshire" (by decide)⟩

/-- C9 (counterexample): the feed path's `deriveOutcodeFromPostcode` does
infer an "outcode" by truncation: on a non-postcode input with no space it
slices off the last three characters — "AYRSHIRE" becomes "AYRSH", a bare
prefix of the input, produced with no regex match and no reference-table
value. -/
theorem c9_truncation_counterexample :
    deriveOutcodeFromPostcode "AYRSHIRE" = "AYRSH" ∧
    matchDeriveRegex ("AYRSHIRE".data) = none ∧
    "AYRSH" = String.mk ("AYRSHIRE".data.take 5) := by decide

/-- C9 (amended): within `resolveTargeting` the claim holds — every
returned outcode is either the full-postcode regex capture or an exact
`POSTCODE_DISTRICT` value from the reference table — but
`deriveOutcodeFromPostcode` falls back to truncation (text before the
first space, else dropping the final three characters). -/
theorem c9_provenance_amended (db : GeoDb) (loc oc : String)
    (h : oc ∈ (resolveTargeting db loc).postal_codes) :
    extractOutcodeFromPostcode loc = some oc ∨
      ∃ r ∈ db.names, r.POSTCODE_DISTRICT = some oc := by
  rcases hpc : extractOutcodeFromPostcode loc with _ | oc0
  · by_cases h2 : jsTrim loc = ""
    · rw [resolveTargeting_noloc db loc hpc h2] at h
      have e : (serializeTargeting ([] : List String)
          ([] : List OutcodeStats)).postal_codes = [] := rfl
      rw [e] at h
      cases h
    · rw [resolveTargeting_area_postal db loc hpc h2] at h
      rcases (mem_expandAreaToOutcodes db (jsTrim loc) oc).1 h with ⟨r, hr, h3, _, _⟩
      exact Or.inr ⟨r, hr, h3⟩
  · left
    rw [resolveTargeting_pc db loc oc0 hpc] at h
    rcases hget : jsMapGet (fetchOutcodeStats db [oc0]) oc0 with _ | item
    · rw [hget] at h
      replace h : oc ∈ [oc0] := by
        simpa [serializeTargeting_single_postal] using h
      rw [List.mem_singleton.1 h]
    · rw [hget] at h
      replace h : oc ∈ [oc0] := by
        simpa [serializeTargeting_single_postal] using h
      rw [List.mem_singleton.1 h]

/-- C9 (witness). -/
theorem c9_provenance_witness :
    ("G64" ∈ (resolveTargeting ayrDb "Ayrshire").postal_codes) ∧
    (extractOutcodeFromPostcode "Ayrshire" = some "G64" ∨
      ∃ r ∈ ayrDb.names, r.POSTCODE_DISTRICT = some "G64") :=
  ⟨by decide, c9_provenance_amended ayrDb "Ayrshire" "G64" (by decide)⟩

/-- C10: in every resolution, each coverage entry's outcode is an element
of `postal_codes`, coverage holds at most one entry per outcode, and
coverage is never longer than `postal_codes`. -/
theorem c10_coverage_invariant (db : GeoDb) (loc : String) :
    (∀ e ∈ (resolveTargeting db loc).coverage,
      e.outcode ∈ (resolveTargeting db loc).postal_codes) ∧
    ((resolveTargeting db loc).coverage.map (fun e => e.outcode)).Nodup ∧
    (resolveTargeting db loc).coverage.length ≤
      (resolveTargeting db loc).postal_codes.length := by
  rcases hpc : extractOutcodeFromPostcode loc with _ | oc0
  · by_cases h2 : jsTrim loc = ""
    · rw [resolveTargeting_noloc db loc hpc h2]
      exact ⟨fun e he => absurd he (List.not_mem_nil e), List.nodup_nil, Nat.le_refl 0⟩
    · rw [resolveTargeting_area db loc hpc h2]
      by_cases h3 : expandAreaToOutcodes db (jsTrim loc) ≠ []
      · rw [if_pos h3]
        exact coverageFactsAux db (expandAreaToOutcodes db (jsTrim loc)) _
          (expandAreaToOutcodes_nodup db (jsTrim loc))
          (expandAreaToOutcodes_sorted db (jsTrim loc)) rfl
      · rw [if_neg h3]
        exact ⟨fun e he => absurd he (List.not_mem_nil e), List.nodup_nil, Nat.le_refl 0⟩
  · rw [resolveTargeting_pc db loc oc0 hpc]
    rcases hget : jsMapGet (fetchOutcodeStats db [oc0]) oc0 with _ | item
    · exact ⟨fun e he => absurd he (List.not_mem_nil e), List.nodup_nil, Nat.zero_le 1⟩
    · have hoc : item.outcode = oc0 :=
        (fetchOutcodeStats_get_shape db [oc0] oc0 item hget).1
      have hcov : (serializeTargeting [oc0] [item]).coverage = [item] := rfl
      refine ⟨?_, ?_, ?_⟩
      · intro e he
        rw [hcov] at he
        rw [List.mem_singleton.1 he, serializeTargeting_single_postal, hoc]
        exact List.mem_singleton.2 rfl
      · rw [hcov]
        exact List.nodup_singleton _
      · rw [hcov, serializeTargeting_single_postal]
        exact Nat.le_refl 1

/-- C10 (witness). -/
theorem c10_coverage_invariant_witness :
    (∀ e ∈ (resolveTargeting ayrDb "Ayrshire").coverage,
      e.outcode ∈ (resolveTargeting ayrDb "Ayrshire").postal_codes) ∧
    ((resolveTargeting ayrDb "Ayrshire").coverage.map (fun e => e.outcode)).Nodup ∧
    (resolveTargeting ayrDb "Ayrshire").coverage.length ≤
      (resolveTargeting ayrDb "Ayrshire").postal_codes.length :=
  c10_coverage_invariant ayrDb "Ayrshire"

end OutcodeTargeting
